import Mathlib

/-!
Verification development for the `langgraph-search-agent` repository.

The development shallowly embeds the research-agent orchestration defined in
`src/search_agent/graph.py` together with the state schema of
`src/search_agent/state.py` and the configuration defaults of
`src/search_agent/configuration.py`.  LLM calls and the grounded-search
backend are modelled as oracles supplied to the run; the LangGraph engine
(fan-out via `Send` lists, per-field reducers, the join edge into
`reflection`, termination when a superstep produces no tasks) is embedded as
an explicit executor over the graph wiring of `graph.py`.

Python strings are modelled as `List Char`; Python's substring test (`in`)
and `str.replace` are given executable definitions below.
-/

namespace SearchAgent

/-- Python strings, modelled as lists of characters. -/
abbrev PyStr := List Char

/-- Models Python's substring test `pat in t` (contiguous substring). -/
def pyContains (t pat : PyStr) : Bool :=
  t.tails.any fun suf => pat.isPrefixOf suf

/-- Worker for `pyReplace`, structurally recursive on a length bound: at
each position, when the (non-empty) pattern matches the text's front, emit
the replacement and skip the matched characters, else keep one character
and continue.  The bound argument dominates the text length throughout, so
it never runs out before the text does. -/
def pyReplaceFuel : Nat → PyStr → PyStr → PyStr → PyStr
  | 0, t, _, _ => t
  | n + 1, t, pat, rep =>
    match t with
    | [] => []
    | c :: rest =>
      if pat ≠ [] ∧ pat.isPrefixOf (c :: rest) then
        rep ++ pyReplaceFuel n ((c :: rest).drop pat.length) pat rep
      else
        c :: pyReplaceFuel n rest pat rep

/-- Models Python's `t.replace(pat, rep)`: replaces every occurrence of
`pat` in `t` by `rep`, scanning left to right without overlap.  (For the
degenerate empty pattern, which never arises for the short URLs fed to it,
this model returns `t` unchanged.) -/
def pyReplace (t pat rep : PyStr) : PyStr :=
  pyReplaceFuel t.length t pat rep

/-- Source segment record, from `SourceSegment` in `state.py`: a label, the
run-unique short URL, and the original long URL (`value`). -/
structure SourceSegment where
  label : PyStr
  short_url : PyStr
  value : PyStr
deriving DecidableEq, Repr

/-- The post-processing loop of `finalize_answer` (graph.py lines 266-273),
translated directly from the imperative Python loop: starting from the
generated answer `content` and an empty `unique_sources` accumulator, each
source whose `short_url` occurs in the current text has that short URL
replaced by `value` and is appended to the accumulator. -/
def finalize_answer_post (content : PyStr) (sources : List SourceSegment) :
    PyStr × List SourceSegment :=
  sources.foldl
    (fun acc source =>
      if pyContains acc.1 source.short_url then
        (pyReplace acc.1 source.short_url source.value, acc.2 ++ [source])
      else acc)
    (content, [])

/-- Spec-side description of the final text produced by the sequential
replacement pass: each source in list order is replaced in the text as it
stands when that source is processed. -/
def finalizeTextSpec (content : PyStr) : List SourceSegment → PyStr
  | [] => content
  | s :: rest =>
    if pyContains content s.short_url then
      finalizeTextSpec (pyReplace content s.short_url s.value) rest
    else
      finalizeTextSpec content rest

/-- Spec-side description of the kept (cited) sources: a source is kept
exactly when its short URL occurs in the text as it stands when that source
is processed, earlier replacements already applied. -/
def finalizeKeptSpec (content : PyStr) : List SourceSegment → List SourceSegment
  | [] => []
  | s :: rest =>
    if pyContains content s.short_url then
      s :: finalizeKeptSpec (pyReplace content s.short_url s.value) rest
    else
      finalizeKeptSpec content rest

/-- Agent configuration, from `configuration.py` (model names and the two
integer knobs; the defaults are those of the `Field` declarations). -/
structure Configuration where
  query_generator_model : String := "gemini-2.5-flash"
  reflection_model : String := "gemini-2.5-flash"
  answer_model : String := "gemini-2.5-pro"
  number_of_initial_queries : Int := 3
  max_research_loops : Int := 2
deriving DecidableEq, Repr

/-- A LangGraph `Send` task descriptor: the target node name plus the
`WebSearchState` payload `{search_query, id}` built in
`continue_to_web_research` and `evaluate_research`. -/
structure Send where
  node : String
  search_query : String
  id : Int
deriving DecidableEq, Repr

/-- Result of a conditional-edge routing function: either the single next
node name, or a dynamically sized list of `Send` fan-out tasks. -/
inductive RouteDecision where
  | node (name : String)
  | sends (tasks : List Send)
deriving DecidableEq, Repr

/-- The task list carried by a routing decision (`[]` for a plain node). -/
def RouteDecision.sendList : RouteDecision → List Send
  | .node _ => []
  | .sends tasks => tasks

/-- The reflection-related portion of the graph state read by
`evaluate_research`, from `ReflectionState` in `state.py`.  The
`max_research_loops` field mirrors `state.get("max_research_loops")` on the
merged graph state: it is `none` when the key is absent or `None`. -/
structure ReflectionState where
  is_sufficient : Bool
  knowledge_gap : String
  follow_up_queries : List String
  research_loop_count : Int
  number_of_ran_queries : Int
  max_research_loops : Option Int
deriving DecidableEq, Repr

/-- The overall graph state, from `OverallState` in `state.py`.  Messages
are reduced to their text content; the three list fields carry the
`operator.add` (append) reducer, the scalar fields are last-write, and
`Option` models a key that may be absent (`state.get` then falls back to a
default). -/
structure OverallState where
  messages : List PyStr
  search_query : List String
  web_research_result : List String
  sources_gathered : List SourceSegment
  initial_search_query_count : Option Int
  max_research_loops : Option Int
  research_loop_count : Option Int
  reasoning_model : Option String
deriving DecidableEq, Repr

/-- The effective loop bound used by `evaluate_research` (graph.py lines
212-216): the state's `max_research_loops` when that is not `None`,
otherwise the configured `max_research_loops`. -/
def effectiveMax (state_max : Option Int) (cfg : Configuration) : Int :=
  match state_max with
  | some m => m
  | none => cfg.max_research_loops

/-- The routing function `evaluate_research` (graph.py lines 195-229):
route to `finalize_answer` when the reflection judged the evidence
sufficient or the loop count reached the effective bound, otherwise fan out
one `web_research` task per follow-up query, with ids continuing from
`number_of_ran_queries`. -/
def evaluate_research (state : ReflectionState) (cfg : Configuration) :
    RouteDecision :=
  let max_research_loops := effectiveMax state.max_research_loops cfg
  if state.is_sufficient = true ∨ state.research_loop_count ≥ max_research_loops then
    .node "finalize_answer"
  else
    .sends (state.follow_up_queries.enum.map fun p =>
      { node := "web_research", search_query := p.2,
        id := state.number_of_ran_queries + (p.1 : Int) })

/-- The routing function `continue_to_web_research` (graph.py lines
93-101): one `web_research` task per entry of the merged `search_query`
channel, with `id = int(idx)` from `enumerate`. -/
def continue_to_web_research (search_query : List String) : List Send :=
  search_query.enum.map fun p =>
    { node := "web_research", search_query := p.2, id := (p.1 : Int) }

/-- Structured output of one reflection LLM call, from the `Reflection`
schema used in graph.py lines 182-189. -/
structure ReflectionOutput where
  is_sufficient : Bool
  knowledge_gap : String
  follow_up_queries : List String
deriving DecidableEq, Repr

/-- Oracle bundling the external collaborators (LLM calls and grounded
search).  `generated_queries` is the structured output of the
`generate_query` LLM call; `web_text`/`web_sources` give, per branch id and
query, the citation-annotated text and the flattened citation segments
computed inside `web_research`; `reflections k` is the structured output of
the k-th reflection call; `answer_text` is the draft answer produced by the
`finalize_answer` LLM call. -/
structure Oracle where
  generated_queries : List String
  web_text : Int → String → String
  web_sources : Int → String → List SourceSegment
  reflections : Nat → ReflectionOutput
  answer_text : PyStr

/-- The partial update returned by `web_research` (graph.py lines 144-148). -/
structure WebUpdate where
  sources_gathered : List SourceSegment
  search_query : List String
  web_research_result : List String
deriving DecidableEq, Repr

/-- The `web_research` node (graph.py lines 104-148) for one `Send` task:
searches the query, resolves and cites sources, and returns the partial
update `{sources_gathered, search_query := [query], web_research_result}`. -/
def web_research_node (oracle : Oracle) (task : Send) : WebUpdate :=
  { sources_gathered := oracle.web_sources task.id task.search_query,
    search_query := [task.search_query],
    web_research_result := [oracle.web_text task.id task.search_query] }

/-- Merge of a `web_research` partial update into the overall state: the
three list channels carry the `operator.add` reducer (state.py lines
33-35), so the update is appended. -/
def applyWebUpdate (st : OverallState) (u : WebUpdate) : OverallState :=
  { st with
      sources_gathered := st.sources_gathered ++ u.sources_gathered,
      search_query := st.search_query ++ u.search_query,
      web_research_result := st.web_research_result ++ u.web_research_result }

/-- A completed fan-out batch: every branch of the batch runs and its
update is merged before the next node executes (full join). -/
def runBatch (oracle : Oracle) (st : OverallState) (tasks : List Send) :
    OverallState :=
  tasks.foldl (fun s task => applyWebUpdate s (web_research_node oracle task)) st

/-- The `reflection` node (graph.py lines 151-192) at its k-th execution:
increments `research_loop_count` (defaulting to 0 when absent), consults
the reflection LLM, and records `number_of_ran_queries` as the length of
the merged `search_query` channel.  The merged state's
`max_research_loops` is carried along because `evaluate_research` reads it
from the graph state. -/
def reflection_node (oracle : Oracle) (k : Nat) (st : OverallState) :
    ReflectionState :=
  let out := oracle.reflections k
  { is_sufficient := out.is_sufficient,
    knowledge_gap := out.knowledge_gap,
    follow_up_queries := out.follow_up_queries,
    research_loop_count := st.research_loop_count.getD 0 + 1,
    number_of_ran_queries := (st.search_query.length : Int),
    max_research_loops := st.max_research_loops }

/-- Merge of the reflection update: `research_loop_count` is a last-write
scalar channel of `OverallState`. -/
def applyReflectionUpdate (st : OverallState) (r : ReflectionState) :
    OverallState :=
  { st with research_loop_count := some r.research_loop_count }

/-- The `finalize_answer` node (graph.py lines 232-277) together with the
merge of its partial update: the answer draft is post-processed by
`finalize_answer_post`; the resulting message is appended to `messages`
(the `add_messages` reducer) and the resulting `unique_sources` list is
appended to `sources_gathered`, whose channel carries the `operator.add`
reducer. -/
def finalize_answer_node (oracle : Oracle) (st : OverallState) : OverallState :=
  let post := finalize_answer_post oracle.answer_text st.sources_gathered
  { st with
      messages := st.messages ++ [post.1],
      sources_gathered := st.sources_gathered ++ post.2 }

/-- How a run ends: through `finalize_answer` and the edge to `END`, or by
a superstep with no tasks (an empty `Send` list from a routing function),
or because the executor's fuel ran out. -/
inductive Outcome where
  | finalized
  | halted_no_initial_branches
  | halted_no_followup_branches
  | out_of_fuel
deriving DecidableEq, Repr

/-- Trace of a run: the final merged state, how the run ended, every
fan-out batch that actually executed (in order), and the
`research_loop_count` value recorded by each reflection execution. -/
structure RunTrace where
  final : OverallState
  outcome : Outcome
  batches : List (List Send)
  loop_counts : List Int
deriving Repr

/-- The research loop of the compiled graph (graph.py lines 296-300):
entered with the state left by a completed `web_research` batch, it runs
the single `reflection` node (the join edge `web_research → reflection`),
then routes via `evaluate_research`: to `finalize_answer`, to a new
`web_research` fan-out batch, or — when the fan-out is empty — the run
halts because the superstep has no tasks. -/
def researchLoop (oracle : Oracle) (cfg : Configuration) :
    Nat → Nat → OverallState → List (List Send) → List Int → RunTrace
  | 0, _, st, batches, counts => ⟨st, .out_of_fuel, batches, counts⟩
  | fuel + 1, k, st, batches, counts =>
    let r := reflection_node oracle k st
    let st1 := applyReflectionUpdate st r
    let counts1 := counts ++ [r.research_loop_count]
    match evaluate_research r cfg with
    | .node _ => ⟨finalize_answer_node oracle st1, .finalized, batches, counts1⟩
    | .sends [] => ⟨st1, .halted_no_followup_branches, batches, counts1⟩
    | .sends (task :: rest) =>
      let st2 := runBatch oracle st1 (task :: rest)
      researchLoop oracle cfg fuel (k + 1) st2 (batches ++ [task :: rest]) counts1

/-- The initial phase of a run: `generate_query` appends its query list to
the `search_query` channel, then `continue_to_web_research` fans out over
the merged channel and the resulting batch runs to completion. -/
def initialPhase (oracle : Oracle) (input : OverallState) :
    OverallState × List Send :=
  let st0 := { input with search_query := input.search_query ++ oracle.generated_queries }
  let tasks := continue_to_web_research st0.search_query
  (runBatch oracle st0 tasks, tasks)

/-- A full run of the compiled graph from an input state: `generate_query`,
the initial fan-out (an empty fan-out halts the run at once), then the
research loop. -/
def runResearch (oracle : Oracle) (cfg : Configuration) (input : OverallState)
    (fuel : Nat) : RunTrace :=
  let phase := initialPhase oracle input
  match phase.2 with
  | [] => ⟨phase.1, .halted_no_initial_branches, [], []⟩
  | task :: rest =>
    researchLoop oracle cfg fuel 0 phase.1 [task :: rest] []

/-- Input state of a fresh run as built by the callers: only the user
question is present; every other channel is empty or absent, apart from the
scalars the caller may set. -/
def mkInput (question : PyStr) (max_loops : Option Int)
    (initial_count : Option Int) (model : Option String) : OverallState :=
  { messages := [question],
    search_query := [],
    web_research_result := [],
    sources_gathered := [],
    initial_search_query_count := initial_count,
    max_research_loops := max_loops,
    research_loop_count := none,
    reasoning_model := model }

/-- Modelled from the spec: the short key produced by the Source Resolver.
The resolver itself (`resolve_urls` in `search_agent/utils.py`) is not
under `src/`; spec section 4.1 prescribes a key "generated from a
monotonically increasing run-scoped counter combined with the branch
identifier", modelled here as that pair. -/
structure ShortKey where
  branch : Int
  counter : Nat
deriving DecidableEq, Repr

/-- Modelled from the spec: the run-scoped state of the Source Resolver —
the assignments made so far, in assignment order, plus the monotonically
increasing run-scoped counter. -/
structure ResolverState where
  assigned : List (String × ShortKey)
  counter : Nat
deriving DecidableEq, Repr

/-- Modelled from the spec: the resolver state at the start of a run. -/
def emptyResolver : ResolverState := ⟨[], 0⟩

/-- Modelled from the spec: resolution of a single long URL — an
already-seen URL keeps its existing key (idempotence), an unseen URL
receives a fresh key built from the branch identifier and the run-scoped
counter, which then increases. -/
def resolveOne (branch : Int) (st : ResolverState) (url : String) :
    ResolverState :=
  match st.assigned.lookup url with
  | some _ => st
  | none => ⟨st.assigned ++ [(url, ⟨branch, st.counter⟩)], st.counter + 1⟩

/-- Modelled from the spec: `resolve(branchId, longUrls)` — each URL of the
call is resolved in turn against the run-scoped state. -/
def resolve_urls (branch : Int) (urls : List String) (st : ResolverState) :
    ResolverState :=
  urls.foldl (resolveOne branch) st

/-- Modelled from the spec: the resolver state reached after a run's whole
sequence of `resolve_urls` calls, each tagged with its branch id. -/
def runResolver (calls : List (Int × List String)) : ResolverState :=
  calls.foldl (fun st c => resolve_urls c.1 c.2 st) emptyResolver

/-- Invariant of the resolver state: every assigned counter is below the
run counter, assigned URLs are pairwise distinct, and assigned counters are
pairwise distinct. -/
def ResolverInv (st : ResolverState) : Prop :=
  (∀ p ∈ st.assigned, p.2.counter < st.counter) ∧
    (st.assigned.map Prod.fst).Nodup ∧
    (st.assigned.map fun p => p.2.counter).Nodup

/-- Bundle of loop invariants established along `researchLoop`: reflection
counts form the sequence 1, 2, …; the state's loop count tracks the number
of reflections; at most one reflection happens per executed batch; branch
ids stay pairwise distinct; the loop bound channel is never rewritten; and
a completed run respects the loop bound. -/
def LoopConclusion (st : OverallState) (cfg : Configuration)
    (counts : List Int) (t : RunTrace) : Prop :=
  t.loop_counts =
      (List.range t.loop_counts.length).map (fun i : Nat => (i : Int) + 1) ∧
    t.final.research_loop_count.getD 0 = (t.loop_counts.length : Int) ∧
    counts.length ≤ t.loop_counts.length ∧
    t.loop_counts.length ≤ t.batches.length ∧
    (t.batches.flatten.map Send.id).Nodup ∧
    t.final.max_research_loops = st.max_research_loops ∧
    (t.outcome ≠ .out_of_fuel → counts.length < t.loop_counts.length) ∧
    (t.outcome ≠ .out_of_fuel →
      (t.loop_counts.length : Int) ≤ max (effectiveMax st.max_research_loops cfg) 1)

/-- Sample oracle for concrete runs: one generated query, two gathered
sources of which exactly the first is cited by the draft answer, and a
first reflection that judges the evidence sufficient. -/
def sampleOracle : Oracle :=
  { generated_queries := ["q1"],
    web_text := fun _ _ => "t",
    web_sources := fun _ _ => [⟨['L'], ['c'], ['v']⟩, ⟨['M'], ['x'], ['y']⟩],
    reflections := fun _ => ⟨true, "", []⟩,
    answer_text := ['c'] }

/-- Sample oracle whose query generation yields zero queries and whose
reflections are insufficient with zero follow-up queries. -/
def emptyOracle : Oracle :=
  { generated_queries := [],
    web_text := fun _ _ => "t",
    web_sources := fun _ _ => [],
    reflections := fun _ => ⟨false, "", []⟩,
    answer_text := [] }

/-- Default configuration (the `Field` defaults of `configuration.py`). -/
def sampleCfg : Configuration := {}

/-- Fresh input state with no caller overrides. -/
def sampleInput : OverallState := mkInput ['q'] none none none

/-- Fresh input state with `max_research_loops` overridden to 0. -/
def zeroInput : OverallState := mkInput ['q'] (some 0) none none

/-- Fresh input state with `max_research_loops` overridden to 5. -/
def fiveInput : OverallState := mkInput ['q'] (some 5) none none

theorem finalize_foldl_spec (sources : List SourceSegment) (content : PyStr)
    (kept : List SourceSegment) :
    sources.foldl
      (fun acc source =>
        if pyContains acc.1 source.short_url then
          (pyReplace acc.1 source.short_url source.value, acc.2 ++ [source])
        else acc)
      (content, kept) =
    (finalizeTextSpec content sources, kept ++ finalizeKeptSpec content sources) := by
  induction sources generalizing content kept with
  | nil => simp [finalizeTextSpec, finalizeKeptSpec]
  | cons s rest ih =>
    simp only [List.foldl_cons, finalizeTextSpec, finalizeKeptSpec]
    by_cases h : pyContains content s.short_url
    · simp [h, ih]
    · simp [h, ih]

theorem finalize_answer_post_eq (content : PyStr) (sources : List SourceSegment) :
    finalize_answer_post content sources =
      (finalizeTextSpec content sources, finalizeKeptSpec content sources) := by
  simpa using finalize_foldl_spec sources content []

theorem finalizeKeptSpec_sublist (content : PyStr) (sources : List SourceSegment) :
    (finalizeKeptSpec content sources).Sublist sources := by
  induction sources generalizing content with
  | nil => simp [finalizeKeptSpec]
  | cons s rest ih =>
    simp only [finalizeKeptSpec]
    by_cases h : pyContains content s.short_url
    · simpa [h] using (ih (pyReplace content s.short_url s.value)).cons₂ s
    · simpa [h] using (ih content).cons s

@[simp]
theorem applyWebUpdate_research_loop_count (st : OverallState) (u : WebUpdate) :
    (applyWebUpdate st u).research_loop_count = st.research_loop_count := rfl

@[simp]
theorem applyWebUpdate_max_research_loops (st : OverallState) (u : WebUpdate) :
    (applyWebUpdate st u).max_research_loops = st.max_research_loops := rfl

theorem runBatch_research_loop_count (oracle : Oracle) (st : OverallState)
    (tasks : List Send) :
    (runBatch oracle st tasks).research_loop_count = st.research_loop_count := by
  induction tasks generalizing st with
  | nil => rfl
  | cons t rest ih => simpa [runBatch] using ih (applyWebUpdate st (web_research_node oracle t))

theorem runBatch_max_research_loops (oracle : Oracle) (st : OverallState)
    (tasks : List Send) :
    (runBatch oracle st tasks).max_research_loops = st.max_research_loops := by
  induction tasks generalizing st with
  | nil => rfl
  | cons t rest ih => simpa [runBatch] using ih (applyWebUpdate st (web_research_node oracle t))

theorem runBatch_search_query (oracle : Oracle) (st : OverallState)
    (tasks : List Send) :
    (runBatch oracle st tasks).search_query =
      st.search_query ++ tasks.map Send.search_query := by
  induction tasks generalizing st with
  | nil => simp [runBatch]
  | cons t rest ih =>
    simp [runBatch] at ih ⊢
    rw [ih (applyWebUpdate st (web_research_node oracle t))]
    simp [applyWebUpdate, web_research_node]

@[simp]
theorem applyReflectionUpdate_search_query (st : OverallState) (r : ReflectionState) :
    (applyReflectionUpdate st r).search_query = st.search_query := rfl

@[simp]
theorem applyReflectionUpdate_max_research_loops (st : OverallState) (r : ReflectionState) :
    (applyReflectionUpdate st r).max_research_loops = st.max_research_loops := rfl

@[simp]
theorem applyReflectionUpdate_research_loop_count (st : OverallState) (r : ReflectionState) :
    (applyReflectionUpdate st r).research_loop_count = some r.research_loop_count := rfl

@[simp]
theorem finalize_answer_node_research_loop_count (oracle : Oracle) (st : OverallState) :
    (finalize_answer_node oracle st).research_loop_count = st.research_loop_count := rfl

@[simp]
theorem finalize_answer_node_max_research_loops (oracle : Oracle) (st : OverallState) :
    (finalize_answer_node oracle st).max_research_loops = st.max_research_loops := rfl

theorem enum_map_search_query (l : List String) (f : Nat × String → Int) :
    ((l.enum.map fun p => Send.mk "web_research" p.2 (f p)).map Send.search_query) = l := by
  rw [List.map_map]
  have : (Send.search_query ∘ fun p => Send.mk "web_research" p.2 (f p)) = Prod.snd := by
    funext p; rfl
  rw [this, List.enum_map_snd]

theorem enum_map_id_offset (l : List String) (off : Int) :
    ((l.enum.map fun p => Send.mk "web_research" p.2 (off + (p.1 : Int))).map Send.id) =
      (List.range l.length).map fun i : Nat => off + (i : Int) := by
  rw [List.map_map]
  have : (Send.id ∘ fun p : Nat × String => Send.mk "web_research" p.2 (off + (p.1 : Int))) =
      (fun i : Nat => off + (i : Int)) ∘ Prod.fst := by
    funext p; rfl
  rw [this, ← List.map_map, List.enum_map_fst]

theorem enum_map_id_zero (l : List String) :
    ((l.enum.map fun p => Send.mk "web_research" p.2 ((p.1 : Int))).map Send.id) =
      (List.range l.length).map fun i : Nat => (i : Int) := by
  rw [List.map_map]
  have : (Send.id ∘ fun p : Nat × String => Send.mk "web_research" p.2 ((p.1 : Int))) =
      (fun i : Nat => (i : Int)) ∘ Prod.fst := by
    funext p; rfl
  rw [this, ← List.map_map, List.enum_map_fst]

theorem nodup_range_map_offset (n : Nat) (off : Int) :
    ((List.range n).map fun i : Nat => off + (i : Int)).Nodup := by
  refine List.Nodup.map ?_ (List.nodup_range n)
  intro i j h
  simp only at h
  omega

theorem mem_range_map_offset (n : Nat) (off : Int) (x : Int)
    (hx : x ∈ (List.range n).map fun i : Nat => off + (i : Int)) :
    off ≤ x ∧ x < off + (n : Int) := by
  rcases List.mem_map.mp hx with ⟨i, hi, rfl⟩
  have := List.mem_range.mp hi
  omega

theorem evaluate_research_sends_structure (r : ReflectionState) (cfg : Configuration)
    (tasks : List Send) (h : evaluate_research r cfg = .sends tasks) :
    ¬(r.is_sufficient = true ∨
        r.research_loop_count ≥ effectiveMax r.max_research_loops cfg) ∧
      tasks = r.follow_up_queries.enum.map fun p =>
        Send.mk "web_research" p.2 (r.number_of_ran_queries + (p.1 : Int)) := by
  unfold evaluate_research at h
  by_cases hc : r.is_sufficient = true ∨
      r.research_loop_count ≥ effectiveMax r.max_research_loops cfg
  · simp [hc] at h
  · simp [hc] at h
    exact ⟨hc, h.symm⟩

theorem evaluate_research_node_iff (r : ReflectionState) (cfg : Configuration) :
    evaluate_research r cfg = .node "finalize_answer" ↔
      (r.is_sufficient = true ∨
        r.research_loop_count ≥ effectiveMax r.max_research_loops cfg) := by
  unfold evaluate_research
  by_cases hc : r.is_sufficient = true ∨
      r.research_loop_count ≥ effectiveMax r.max_research_loops cfg
  · simp [hc]
  · simp [hc]

theorem researchLoop_zero (oracle : Oracle) (cfg : Configuration) (k : Nat)
    (st : OverallState) (batches : List (List Send)) (counts : List Int) :
    researchLoop oracle cfg 0 k st batches counts =
      ⟨st, .out_of_fuel, batches, counts⟩ := rfl

theorem researchLoop_succ_node (oracle : Oracle) (cfg : Configuration)
    (fuel k : Nat) (st : OverallState) (batches : List (List Send))
    (counts : List Int) (name : String)
    (hev : evaluate_research (reflection_node oracle k st) cfg = .node name) :
    researchLoop oracle cfg (fuel + 1) k st batches counts =
      ⟨finalize_answer_node oracle
          (applyReflectionUpdate st (reflection_node oracle k st)),
        .finalized, batches,
        counts ++ [(reflection_node oracle k st).research_loop_count]⟩ := by
  simp only [researchLoop, hev]

theorem researchLoop_succ_nil (oracle : Oracle) (cfg : Configuration)
    (fuel k : Nat) (st : OverallState) (batches : List (List Send))
    (counts : List Int)
    (hev : evaluate_research (reflection_node oracle k st) cfg = .sends []) :
    researchLoop oracle cfg (fuel + 1) k st batches counts =
      ⟨applyReflectionUpdate st (reflection_node oracle k st),
        .halted_no_followup_branches, batches,
        counts ++ [(reflection_node oracle k st).research_loop_count]⟩ := by
  simp only [researchLoop, hev]

theorem researchLoop_succ_cons (oracle : Oracle) (cfg : Configuration)
    (fuel k : Nat) (st : OverallState) (batches : List (List Send))
    (counts : List Int) (task : Send) (rest : List Send)
    (hev : evaluate_research (reflection_node oracle k st) cfg =
      .sends (task :: rest)) :
    researchLoop oracle cfg (fuel + 1) k st batches counts =
      researchLoop oracle cfg fuel (k + 1)
        (runBatch oracle (applyReflectionUpdate st (reflection_node oracle k st))
          (task :: rest))
        (batches ++ [task :: rest])
        (counts ++ [(reflection_node oracle k st).research_loop_count]) := by
  simp only [researchLoop, hev]

theorem loopConclusion_terminal (st : OverallState) (cfg : Configuration)
    (counts : List Int) (batches : List (List Send)) (f : OverallState)
    (o : Outcome)
    (hf1 : f.research_loop_count.getD 0 = (counts.length : Int) + 1)
    (hf2 : f.max_research_loops = st.max_research_loops)
    (ho : o ≠ Outcome.out_of_fuel)
    (h2 : counts = (List.range counts.length).map (fun i : Nat => (i : Int) + 1))
    (h3 : counts = [] ∨
      (counts.length : Int) < effectiveMax st.max_research_loops cfg)
    (h4 : (batches.flatten.map Send.id).Nodup)
    (h6 : batches.length = counts.length + 1) :
    LoopConclusion st cfg counts
      ⟨f, o, batches, counts ++ [(counts.length : Int) + 1]⟩ := by
  have hcounts1 : counts ++ [(counts.length : Int) + 1] =
      (List.range (counts.length + 1)).map (fun i : Nat => (i : Int) + 1) := by
    rw [List.range_succ, List.map_append, ← h2]
    simp
  have honele := le_max_right (effectiveMax st.max_research_loops cfg) (1 : Int)
  have hmaxle := le_max_left (effectiveMax st.max_research_loops cfg) (1 : Int)
  refine ⟨?_, ?_, ?_, ?_, h4, hf2, ?_, ?_⟩
  · show counts ++ [(counts.length : Int) + 1] =
      (List.range (counts ++ [(counts.length : Int) + 1]).length).map
        (fun i : Nat => (i : Int) + 1)
    simpa using hcounts1
  · show f.research_loop_count.getD 0 =
      ((counts ++ [(counts.length : Int) + 1]).length : Int)
    rw [hf1]
    simp
  · show counts.length ≤ (counts ++ [(counts.length : Int) + 1]).length
    simp
  · show (counts ++ [(counts.length : Int) + 1]).length ≤ batches.length
    simp only [List.length_append, List.length_singleton]
    omega
  · intro _
    show counts.length < (counts ++ [(counts.length : Int) + 1]).length
    simp
  · intro _
    show ((counts ++ [(counts.length : Int) + 1]).length : Int) ≤
      max (effectiveMax st.max_research_loops cfg) 1
    simp only [List.length_append, List.length_singleton]
    rcases h3 with h3 | h3
    · subst h3
      simpa using honele
    · push_cast
      omega

theorem researchLoop_master (oracle : Oracle) (cfg : Configuration) :
    ∀ (fuel k : Nat) (st : OverallState) (batches : List (List Send))
      (counts : List Int),
    st.research_loop_count.getD 0 = (counts.length : Int) →
    counts = (List.range counts.length).map (fun i : Nat => (i : Int) + 1) →
    (counts = [] ∨
      (counts.length : Int) < effectiveMax st.max_research_loops cfg) →
    (batches.flatten.map Send.id).Nodup →
    (∀ i ∈ batches.flatten.map Send.id, i < (st.search_query.length : Int)) →
    batches.length = counts.length + 1 →
    LoopConclusion st cfg counts
      (researchLoop oracle cfg fuel k st batches counts) := by
  intro fuel
  induction fuel with
  | zero =>
    intro k st batches counts h1 h2 h3 h4 h5 h6
    rw [researchLoop_zero]
    exact ⟨h2, h1, le_refl _,
      le_trans (Nat.le_succ _) (le_of_eq h6.symm), h4, rfl,
      fun h => absurd rfl h, fun h => absurd rfl h⟩
  | succ fuel ih =>
    intro k st batches counts h1 h2 h3 h4 h5 h6
    have hrcount : (reflection_node oracle k st).research_loop_count =
        (counts.length : Int) + 1 := by
      simp [reflection_node, h1]
    have hrmax : (reflection_node oracle k st).max_research_loops =
        st.max_research_loops := rfl
    have hrnq : (reflection_node oracle k st).number_of_ran_queries =
        (st.search_query.length : Int) := rfl
    have hcounts1 : counts ++ [(counts.length : Int) + 1] =
        (List.range (counts.length + 1)).map (fun i : Nat => (i : Int) + 1) := by
      rw [List.range_succ, List.map_append, ← h2]
      simp
    cases hev : evaluate_research (reflection_node oracle k st) cfg with
    | node name =>
      rw [researchLoop_succ_node oracle cfg fuel k st batches counts name hev,
        hrcount]
      exact loopConclusion_terminal st cfg counts batches _ _
        (by simp [hrcount]) (by simp) (by decide) h2 h3 h4 h6
    | sends tasks =>
      cases tasks with
      | nil =>
        rw [researchLoop_succ_nil oracle cfg fuel k st batches counts hev,
          hrcount]
        exact loopConclusion_terminal st cfg counts batches _ _
          (by simp [hrcount]) (by simp) (by decide) h2 h3 h4 h6
      | cons task rest =>
        rw [researchLoop_succ_cons oracle cfg fuel k st batches counts task rest
          hev, hrcount]
        obtain ⟨hcond, htasks⟩ :=
          evaluate_research_sends_structure _ cfg _ hev
        rw [hrcount] at hcond
        simp only [hrmax] at hcond
        have hnotge : (counts.length : Int) + 1 <
            effectiveMax st.max_research_loops cfg := by
          rcases not_or.mp hcond with ⟨-, hlt⟩
          omega
        have hids : (task :: rest).map Send.id =
            (List.range
              (reflection_node oracle k st).follow_up_queries.length).map
              (fun i : Nat => (st.search_query.length : Int) + (i : Int)) := by
          rw [htasks, ← hrnq]
          exact enum_map_id_offset _ _
        have hlen3 : (task :: rest).length =
            (reflection_node oracle k st).follow_up_queries.length := by
          rw [htasks]
          simp
        have hlen2 : (runBatch oracle
              (applyReflectionUpdate st (reflection_node oracle k st))
              (task :: rest)).search_query.length =
            st.search_query.length + (task :: rest).length := by
          rw [runBatch_search_query]
          simp [applyReflectionUpdate]
        have happly := ih (k + 1)
          (runBatch oracle
            (applyReflectionUpdate st (reflection_node oracle k st))
            (task :: rest))
          (batches ++ [task :: rest])
          (counts ++ [(counts.length : Int) + 1])
          (by
            simp only [runBatch_research_loop_count,
              applyReflectionUpdate_research_loop_count, Option.getD_some,
              hrcount, List.length_append, List.length_singleton]
            push_cast
            ring)
          (by
            simp only [List.length_append, List.length_singleton]
            exact hcounts1)
          (Or.inr (by
            rw [runBatch_max_research_loops,
              applyReflectionUpdate_max_research_loops]
            simp only [List.length_append, List.length_singleton]
            push_cast
            omega))
          (by
            rw [List.flatten_append, List.map_append]
            refine List.Nodup.append h4 ?_ ?_
            · simp only [List.flatten_cons, List.flatten_nil, List.append_nil]
              rw [hids]
              exact nodup_range_map_offset _ _
            · intro a ha hb
              have halt := h5 a ha
              simp only [List.flatten_cons, List.flatten_nil,
                List.append_nil] at hb
              rw [hids] at hb
              have hmem := mem_range_map_offset _ _ _ hb
              omega)
          (by
            intro i hi
            rw [hlen2]
            rw [List.flatten_append, List.map_append, List.mem_append] at hi
            rcases hi with hi | hi
            · have := h5 i hi
              push_cast
              omega
            · simp only [List.flatten_cons, List.flatten_nil,
                List.append_nil] at hi
              rw [hids] at hi
              have hmem := mem_range_map_offset _ _ _ hi
              have hl3 := hlen3
              push_cast
              omega)
          (by
            simp only [List.length_append, List.length_singleton]
            omega)
        obtain ⟨c1, c2, c3, c4, c5, c6, c7, c8⟩ := happly
        refine ⟨c1, c2, ?_, c4, c5, ?_, ?_, ?_⟩
        · refine le_trans ?_ c3
          simp
        · rw [c6, runBatch_max_research_loops,
            applyReflectionUpdate_max_research_loops]
        · intro hout
          have h7 := c3
          simp only [List.length_append, List.length_singleton] at h7
          omega
        · intro hout
          have h8 := c8 hout
          rwa [runBatch_max_research_loops,
            applyReflectionUpdate_max_research_loops] at h8

theorem nodup_range_map_cast (n : Nat) :
    ((List.range n).map fun i : Nat => (i : Int)).Nodup := by
  refine List.Nodup.map ?_ (List.nodup_range n)
  intro i j h
  simp only at h
  omega

theorem mem_range_map_cast (n : Nat) (x : Int)
    (hx : x ∈ (List.range n).map fun i : Nat => (i : Int)) :
    0 ≤ x ∧ x < (n : Int) := by
  rcases List.mem_map.mp hx with ⟨i, hi, rfl⟩
  have := List.mem_range.mp hi
  omega

theorem continue_map_search_query (l : List String) :
    (continue_to_web_research l).map Send.search_query = l :=
  enum_map_search_query l fun p => (p.1 : Int)

theorem continue_map_id (l : List String) :
    (continue_to_web_research l).map Send.id =
      (List.range l.length).map fun i : Nat => (i : Int) :=
  enum_map_id_zero l

theorem initialPhase_research_loop_count (oracle : Oracle)
    (input : OverallState) :
    (initialPhase oracle input).1.research_loop_count =
      input.research_loop_count := by
  simp only [initialPhase]
  rw [runBatch_research_loop_count]

theorem initialPhase_max_research_loops (oracle : Oracle)
    (input : OverallState) :
    (initialPhase oracle input).1.max_research_loops =
      input.max_research_loops := by
  simp only [initialPhase]
  rw [runBatch_max_research_loops]

theorem initialPhase_snd (oracle : Oracle) (input : OverallState) :
    (initialPhase oracle input).2 =
      continue_to_web_research
        (input.search_query ++ oracle.generated_queries) := rfl

theorem initialPhase_search_query (oracle : Oracle) (input : OverallState) :
    (initialPhase oracle input).1.search_query =
      (input.search_query ++ oracle.generated_queries) ++
        (input.search_query ++ oracle.generated_queries) := by
  simp only [initialPhase]
  rw [runBatch_search_query, continue_map_search_query]

theorem runResearch_nil (oracle : Oracle) (cfg : Configuration)
    (input : OverallState) (fuel : Nat)
    (h : (initialPhase oracle input).2 = []) :
    runResearch oracle cfg input fuel =
      ⟨(initialPhase oracle input).1, .halted_no_initial_branches, [], []⟩ := by
  simp only [runResearch, h]

theorem runResearch_cons (oracle : Oracle) (cfg : Configuration)
    (input : OverallState) (fuel : Nat) (task : Send) (rest : List Send)
    (h : (initialPhase oracle input).2 = task :: rest) :
    runResearch oracle cfg input fuel =
      researchLoop oracle cfg fuel 0 (initialPhase oracle input).1
        [task :: rest] [] := by
  simp only [runResearch, h]

theorem researchLoop_outcome_ne_initial (oracle : Oracle)
    (cfg : Configuration) :
    ∀ (fuel k : Nat) (st : OverallState) (batches : List (List Send))
      (counts : List Int),
    (researchLoop oracle cfg fuel k st batches counts).outcome ≠
      Outcome.halted_no_initial_branches := by
  intro fuel
  induction fuel with
  | zero =>
    intro k st batches counts
    rw [researchLoop_zero]
    intro h
    exact Outcome.noConfusion h
  | succ fuel ih =>
    intro k st batches counts
    cases hev : evaluate_research (reflection_node oracle k st) cfg with
    | node name =>
      rw [researchLoop_succ_node oracle cfg fuel k st batches counts name hev]
      intro h
      exact Outcome.noConfusion h
    | sends tasks =>
      cases tasks with
      | nil =>
        rw [researchLoop_succ_nil oracle cfg fuel k st batches counts hev]
        intro h
        exact Outcome.noConfusion h
      | cons task rest =>
        rw [researchLoop_succ_cons oracle cfg fuel k st batches counts task
          rest hev]
        exact ih _ _ _ _

theorem runResearch_master (oracle : Oracle) (cfg : Configuration)
    (input : OverallState) (fuel : Nat)
    (h0 : input.research_loop_count = none) :
    (runResearch oracle cfg input fuel).loop_counts =
        (List.range (runResearch oracle cfg input fuel).loop_counts.length).map
          (fun i : Nat => (i : Int) + 1) ∧
      (runResearch oracle cfg input fuel).final.research_loop_count.getD 0 =
        ((runResearch oracle cfg input fuel).loop_counts.length : Int) ∧
      (runResearch oracle cfg input fuel).loop_counts.length ≤
        (runResearch oracle cfg input fuel).batches.length ∧
      ((runResearch oracle cfg input fuel).batches.flatten.map Send.id).Nodup ∧
      (runResearch oracle cfg input fuel).final.max_research_loops =
        input.max_research_loops ∧
      ((runResearch oracle cfg input fuel).outcome ≠ .out_of_fuel →
        ((runResearch oracle cfg input fuel).loop_counts.length : Int) ≤
          max (effectiveMax input.max_research_loops cfg) 1) ∧
      ((runResearch oracle cfg input fuel).outcome ≠ .out_of_fuel →
        ((runResearch oracle cfg input fuel).loop_counts = [] ↔
          (runResearch oracle cfg input fuel).outcome =
            .halted_no_initial_branches)) := by
  cases hq : (initialPhase oracle input).2 with
  | nil =>
    rw [runResearch_nil oracle cfg input fuel hq]
    refine ⟨by simp, ?_, by simp, by simp, ?_, ?_, ?_⟩
    · show (initialPhase oracle input).1.research_loop_count.getD 0 =
        (([] : List Int).length : Int)
      rw [initialPhase_research_loop_count, h0]
      simp
    · show (initialPhase oracle input).1.max_research_loops =
        input.max_research_loops
      exact initialPhase_max_research_loops oracle input
    · intro _
      have h1 := le_max_right (effectiveMax input.max_research_loops cfg) (1 : Int)
      show ((([] : List Int).length : Nat) : Int) ≤
        max (effectiveMax input.max_research_loops cfg) 1
      simp only [List.length_nil, Nat.cast_zero]
      omega
    · intro _
      simp
  | cons task rest =>
    rw [runResearch_cons oracle cfg input fuel task rest hq]
    have hids0 : (task :: rest).map Send.id =
        (List.range (input.search_query ++ oracle.generated_queries).length).map
          (fun i : Nat => (i : Int)) := by
      rw [← hq, initialPhase_snd]
      exact continue_map_id _
    have hlen0 : (task :: rest).length =
        (input.search_query ++ oracle.generated_queries).length := by
      have := congrArg List.length hids0
      simpa using this
    have hmaster := researchLoop_master oracle cfg fuel 0
      (initialPhase oracle input).1 [task :: rest] []
      (by rw [initialPhase_research_loop_count, h0]; simp)
      (by simp)
      (Or.inl rfl)
      (by
        simp only [List.flatten_cons, List.flatten_nil, List.append_nil]
        rw [hids0]
        exact nodup_range_map_cast _)
      (by
        intro i hi
        simp only [List.flatten_cons, List.flatten_nil, List.append_nil] at hi
        rw [hids0] at hi
        have hmem := mem_range_map_cast _ _ hi
        simp only [List.length_append] at hmem
        push_cast at hmem
        rw [initialPhase_search_query]
        simp only [List.length_append]
        push_cast
        omega)
      rfl
    obtain ⟨c1, c2, c3, c4, c5, c6, c7, c8⟩ := hmaster
    refine ⟨c1, c2, c4, c5, ?_, ?_, ?_⟩
    · rw [c6, initialPhase_max_research_loops]
    · intro hout
      have h8 := c8 hout
      rwa [initialPhase_max_research_loops] at h8
    · intro hout
      constructor
      · intro hnil
        exfalso
        have h7 := c7 hout
        rw [hnil] at h7
        simp at h7
      · intro hout2
        exact absurd hout2
          (researchLoop_outcome_ne_initial oracle cfg fuel 0 _ _ _)

theorem lookup_append_of_isSome (l1 l2 : List (String × ShortKey))
    (u : String) (h : (l1.lookup u).isSome) :
    (l1 ++ l2).lookup u = l1.lookup u := by
  induction l1 with
  | nil => simp [List.lookup] at h
  | cons p rest ih =>
    obtain ⟨k1, v1⟩ := p
    cases hu : u == k1 with
    | true => simp [List.lookup, hu]
    | false =>
      simp only [List.lookup, hu, List.cons_append] at h ⊢
      exact ih h

theorem lookup_append_self (l : List (String × ShortKey)) (u : String)
    (k : ShortKey) (h : l.lookup u = none) :
    (l ++ [(u, k)]).lookup u = some k := by
  induction l with
  | nil => simp [List.lookup]
  | cons p rest ih =>
    obtain ⟨k1, v1⟩ := p
    cases hu : u == k1 with
    | true => simp [List.lookup, hu] at h
    | false =>
      simp only [List.lookup, hu, List.cons_append] at h ⊢
      exact ih h

theorem mem_fst_of_lookup_none (l : List (String × ShortKey)) (u : String)
    (h : l.lookup u = none) : u ∉ l.map Prod.fst := by
  induction l with
  | nil => simp
  | cons p rest ih =>
    obtain ⟨k1, v1⟩ := p
    cases hu : u == k1 with
    | true => simp [List.lookup, hu] at h
    | false =>
      simp only [List.lookup, hu] at h
      simp only [List.map_cons, List.mem_cons]
      rintro (heq | hmem)
      · subst heq
        simp at hu
      · exact ih h hmem

theorem resolveOne_lookup_some (b : Int) (st : ResolverState) (u : String)
    (k : ShortKey) (h : st.assigned.lookup u = some k) :
    resolveOne b st u = st := by
  unfold resolveOne
  rw [h]

theorem resolveOne_lookup_none (b : Int) (st : ResolverState) (u : String)
    (h : st.assigned.lookup u = none) :
    resolveOne b st u =
      ⟨st.assigned ++ [(u, ⟨b, st.counter⟩)], st.counter + 1⟩ := by
  unfold resolveOne
  rw [h]

theorem resolveOne_stable (b : Int) (st : ResolverState) (u2 u : String)
    (k : ShortKey) (h : st.assigned.lookup u = some k) :
    (resolveOne b st u2).assigned.lookup u = some k := by
  cases hl : st.assigned.lookup u2 with
  | some k2 => rw [resolveOne_lookup_some b st u2 k2 hl]; exact h
  | none =>
    rw [resolveOne_lookup_none b st u2 hl]
    show (st.assigned ++ [(u2, (⟨b, st.counter⟩ : ShortKey))]).lookup u = some k
    rw [lookup_append_of_isSome _ _ _ (by simp [h])]
    exact h

theorem resolve_urls_stable (b : Int) (urls : List String)
    (st : ResolverState) (u : String) (k : ShortKey)
    (h : st.assigned.lookup u = some k) :
    (resolve_urls b urls st).assigned.lookup u = some k := by
  induction urls generalizing st with
  | nil => exact h
  | cons u2 rest ih =>
    exact ih (resolveOne b st u2) (resolveOne_stable b st u2 u k h)

theorem resolveOne_isSome_self (b : Int) (st : ResolverState) (u : String) :
    ((resolveOne b st u).assigned.lookup u).isSome := by
  cases hl : st.assigned.lookup u with
  | some k => rw [resolveOne_lookup_some b st u k hl, hl]; rfl
  | none =>
    rw [resolveOne_lookup_none b st u hl]
    show ((st.assigned ++ [(u, (⟨b, st.counter⟩ : ShortKey))]).lookup u).isSome
    rw [lookup_append_self _ _ _ hl]
    rfl

theorem isSome_stable (b : Int) (urls : List String) (st : ResolverState)
    (u : String) (h : (st.assigned.lookup u).isSome) :
    ((resolve_urls b urls st).assigned.lookup u).isSome := by
  rcases Option.isSome_iff_exists.mp h with ⟨k, hk⟩
  rw [resolve_urls_stable b urls st u k hk]
  rfl

theorem resolve_urls_isSome (b : Int) (urls : List String)
    (st : ResolverState) :
    ∀ u ∈ urls, ((resolve_urls b urls st).assigned.lookup u).isSome := by
  induction urls generalizing st with
  | nil => intro u hu; simp at hu
  | cons u2 rest ih =>
    intro u hu
    rcases List.mem_cons.mp hu with rfl | hu
    · exact isSome_stable b rest (resolveOne b st u) u
        (resolveOne_isSome_self b st u)
    · exact ih (resolveOne b st u2) u hu

theorem resolve_urls_of_all_isSome (b : Int) (urls : List String)
    (st : ResolverState)
    (h : ∀ u ∈ urls, (st.assigned.lookup u).isSome) :
    resolve_urls b urls st = st := by
  induction urls generalizing st with
  | nil => rfl
  | cons u2 rest ih =>
    show resolve_urls b rest (resolveOne b st u2) = st
    have hu2 := h u2 (List.mem_cons_self u2 rest)
    rcases Option.isSome_iff_exists.mp hu2 with ⟨k, hk⟩
    rw [resolveOne_lookup_some b st u2 k hk]
    exact ih st fun u hu => h u (List.mem_cons_of_mem u2 hu)

theorem resolveOne_inv (b : Int) (st : ResolverState) (u : String)
    (h : ResolverInv st) : ResolverInv (resolveOne b st u) := by
  cases hl : st.assigned.lookup u with
  | some k => rw [resolveOne_lookup_some b st u k hl]; exact h
  | none =>
    rw [resolveOne_lookup_none b st u hl]
    obtain ⟨h1, h2, h3⟩ := h
    refine ⟨?_, ?_, ?_⟩
    · intro p hp
      simp only [List.mem_append, List.mem_singleton] at hp
      show p.2.counter < st.counter + 1
      rcases hp with hp | rfl
      · have := h1 p hp
        omega
      · simp
    · show ((st.assigned ++ [(u, (⟨b, st.counter⟩ : ShortKey))]).map Prod.fst).Nodup
      rw [List.map_append]
      refine List.Nodup.append h2 (by simp) ?_
      intro a ha hb
      simp only [List.map_cons, List.map_nil, List.mem_singleton] at hb
      subst hb
      exact mem_fst_of_lookup_none _ _ hl ha
    · show ((st.assigned ++ [(u, (⟨b, st.counter⟩ : ShortKey))]).map
        fun p : String × ShortKey => p.2.counter).Nodup
      rw [List.map_append]
      refine List.Nodup.append h3 (by simp) ?_
      intro a ha hb
      simp only [List.map_cons, List.map_nil, List.mem_singleton] at hb
      subst hb
      rcases List.mem_map.mp ha with ⟨p, hp, hpc⟩
      have := h1 p hp
      omega

theorem resolve_urls_inv (b : Int) (urls : List String) (st : ResolverState)
    (h : ResolverInv st) : ResolverInv (resolve_urls b urls st) := by
  induction urls generalizing st with
  | nil => exact h
  | cons u2 rest ih => exact ih (resolveOne b st u2) (resolveOne_inv b st u2 h)

theorem foldl_resolve_inv (calls : List (Int × List String)) :
    ∀ (st : ResolverState), ResolverInv st →
      ResolverInv (calls.foldl (fun st c => resolve_urls c.1 c.2 st) st) := by
  induction calls with
  | nil => intro st hst; exact hst
  | cons c rest ih =>
    intro st hst
    rw [List.foldl_cons]
    exact ih _ (resolve_urls_inv c.1 c.2 st hst)

theorem runResolver_inv (calls : List (Int × List String)) :
    ResolverInv (runResolver calls) := by
  refine foldl_resolve_inv calls emptyResolver ⟨?_, ?_, ?_⟩ <;>
    simp [emptyResolver]

theorem enum_map_eq_range_map (l : List String) (off : Int) :
    (l.enum.map fun p => Send.mk "web_research" p.2 (off + (p.1 : Int))) =
      (List.range l.length).map fun i : Nat =>
        Send.mk "web_research" (l.getD i "") (off + (i : Int)) := by
  apply List.ext_getElem
  · simp
  · intro i h1 h2
    have hi : i < l.length := by simpa using h2
    simp only [List.getElem_map, List.getElem_enum, List.getElem_range]
    rw [List.getD_eq_getElem l "" hi]

/-- C1 counterexample: in a concrete completed run, the gathered source with
short URL `x` is never cited — its key does not occur in the final answer
text — yet it remains in the final state's `sources_gathered`, and the cited
source appears twice rather than exactly once, because `finalize_answer`'s
update is appended by the `operator.add` reducer instead of replacing the
field. -/
theorem C1_counterexample :
    (⟨['M'], ['x'], ['y']⟩ : SourceSegment) ∈
        (runResearch sampleOracle sampleCfg sampleInput 2).final.sources_gathered ∧
      (runResearch sampleOracle sampleCfg sampleInput 2).final.messages.getLast? =
        some ['v'] ∧
      pyContains ['v'] ['x'] = false ∧
      (runResearch sampleOracle sampleCfg
          sampleInput 2).final.sources_gathered.count
        (⟨['L'], ['c'], ['v']⟩ : SourceSegment) = 2 := by
  decide

/-- C1 (amended): `finalize_answer` computes the only-cited subset — the
subsequence of the gathered sources whose short URL occurs in the answer
text as it stands when each source is processed — and returns it as its
partial update, but the `operator.add` reducer on `sources_gathered`
appends that subset to the state field: after finalization the state field
is the previously gathered list with the cited subsequence appended, so
gathered-but-uncited sources remain in the state field. -/
theorem C1_finalize_state_append (oracle : Oracle) (st : OverallState) :
    (finalize_answer_node oracle st).sources_gathered =
        st.sources_gathered ++
          finalizeKeptSpec oracle.answer_text st.sources_gathered ∧
      (finalizeKeptSpec oracle.answer_text st.sources_gathered).Sublist
        st.sources_gathered ∧
      (finalize_answer_node oracle st).messages =
        st.messages ++
          [finalizeTextSpec oracle.answer_text st.sources_gathered] := by
  refine ⟨?_, finalizeKeptSpec_sublist _ _, ?_⟩
  · show st.sources_gathered ++
        (finalize_answer_post oracle.answer_text st.sources_gathered).2 = _
    rw [finalize_answer_post_eq]
  · show st.messages ++
        [(finalize_answer_post oracle.answer_text st.sources_gathered).1] = _
    rw [finalize_answer_post_eq]

/-- C2: `evaluate_research` returns the terminal route `finalize_answer`
exactly when `is_sufficient` is true or `research_loop_count` has reached
the effective bound (the state's `max_research_loops` when not `None`,
otherwise the configuration's); otherwise it returns exactly one
`web_research` fan-out task per follow-up query, in the order given, with
ids `number_of_ran_queries + i`. -/
theorem C2_evaluate_research_routing (s : ReflectionState)
    (cfg : Configuration) :
    (evaluate_research s cfg = .node "finalize_answer" ↔
        (s.is_sufficient = true ∨
          s.research_loop_count ≥ effectiveMax s.max_research_loops cfg)) ∧
      evaluate_research s cfg =
        if s.is_sufficient = true ∨
            s.research_loop_count ≥ effectiveMax s.max_research_loops cfg then
          .node "finalize_answer"
        else
          .sends ((List.range s.follow_up_queries.length).map fun i : Nat =>
            { node := "web_research",
              search_query := s.follow_up_queries.getD i "",
              id := s.number_of_ran_queries + (i : Int) }) := by
  refine ⟨evaluate_research_node_iff s cfg, ?_⟩
  by_cases hc : s.is_sufficient = true ∨
      s.research_loop_count ≥ effectiveMax s.max_research_loops cfg
  · rw [if_pos hc]
    exact (evaluate_research_node_iff s cfg).mpr hc
  · rw [if_neg hc]
    simp only [evaluate_research]
    rw [if_neg hc, enum_map_eq_range_map]

/-- C3 counterexample: a concrete run with `max_research_loops = 0` still
executes one reflection (the graph consults the bound only after the first
reflection), so the final `research_loop_count` is 1, which does not lie in
the empty interval `[1, 0]`. -/
theorem C3_counterexample :
    (runResearch sampleOracle sampleCfg zeroInput 1).loop_counts.length = 1 ∧
      (runResearch sampleOracle sampleCfg zeroInput 1).final.research_loop_count =
        some 1 ∧
      zeroInput.max_research_loops = some 0 ∧
      ¬((1 : Int) ≤ 0) :=
  ⟨rfl, rfl, rfl, by decide⟩

/-- C3 (amended): for every completed run, if at least one reflection
executed the final `research_loop_count` lies in `[1, max(maxLoops, 1)]`
(so in `[1, maxLoops]` whenever `maxLoops ≥ 1`, and it is exactly 1 when
`maxLoops ≤ 0`, where one reflection still executes); the final count is 0
exactly when no reflection executed, which happens when the initial fan-out
is empty, not when `maxLoops = 0`. -/
theorem C3_loop_count_bounds (oracle : Oracle) (cfg : Configuration)
    (input : OverallState) (fuel : Nat)
    (h0 : input.research_loop_count = none)
    (hout : (runResearch oracle cfg input fuel).outcome ≠ .out_of_fuel) :
    ((runResearch oracle cfg input fuel).loop_counts ≠ [] →
        1 ≤ (runResearch oracle cfg input fuel).final.research_loop_count.getD 0 ∧
          (runResearch oracle cfg input fuel).final.research_loop_count.getD 0 ≤
            max (effectiveMax input.max_research_loops cfg) 1) ∧
      ((runResearch oracle cfg input fuel).loop_counts = [] →
        (runResearch oracle cfg input fuel).final.research_loop_count.getD 0 = 0 ∧
          (runResearch oracle cfg input fuel).outcome =
            .halted_no_initial_branches) := by
  obtain ⟨c1, c2, c3, c4, c5, c6, c7⟩ :=
    runResearch_master oracle cfg input fuel h0
  constructor
  · intro hne
    have hpos : 0 < (runResearch oracle cfg input fuel).loop_counts.length :=
      List.length_pos.mpr hne
    constructor
    · rw [c2]
      exact_mod_cast hpos
    · rw [c2]
      exact c6 hout
  · intro hnil
    constructor
    · rw [c2, hnil]
      simp
    · exact (c7 hout).mp hnil

/-- Witness for the amended C3 at a concrete completed run. -/
theorem C3_witness :
    ((runResearch sampleOracle sampleCfg sampleInput 2).loop_counts ≠ [] →
        1 ≤ (runResearch sampleOracle sampleCfg
            sampleInput 2).final.research_loop_count.getD 0 ∧
          (runResearch sampleOracle sampleCfg
              sampleInput 2).final.research_loop_count.getD 0 ≤
            max (effectiveMax sampleInput.max_research_loops sampleCfg) 1) ∧
      ((runResearch sampleOracle sampleCfg sampleInput 2).loop_counts = [] →
        (runResearch sampleOracle sampleCfg
            sampleInput 2).final.research_loop_count.getD 0 = 0 ∧
          (runResearch sampleOracle sampleCfg sampleInput 2).outcome =
            .halted_no_initial_branches) :=
  C3_loop_count_bounds sampleOracle sampleCfg sampleInput 2 rfl (by decide)

/-- C4: the counts recorded by successive reflection executions are exactly
1, 2, 3, …, so each reflection increments `research_loop_count` by exactly
1 from its prior value (defaulting to 0); the final state's count equals
the number of reflections executed (no step of the engine ever decreases
it); and at most one reflection executes per fan-out batch — reflection is
entered only through the single join edge from `web_research` and is never
fanned out. -/
theorem C4_reflection_increments (oracle : Oracle) (cfg : Configuration)
    (input : OverallState) (fuel : Nat)
    (h0 : input.research_loop_count = none) :
    (runResearch oracle cfg input fuel).loop_counts =
        (List.range (runResearch oracle cfg input fuel).loop_counts.length).map
          (fun i : Nat => (i : Int) + 1) ∧
      (runResearch oracle cfg input fuel).final.research_loop_count.getD 0 =
        ((runResearch oracle cfg input fuel).loop_counts.length : Int) ∧
      (runResearch oracle cfg input fuel).loop_counts.length ≤
        (runResearch oracle cfg input fuel).batches.length := by
  obtain ⟨c1, c2, c3, -, -, -, -⟩ := runResearch_master oracle cfg input fuel h0
  exact ⟨c1, c2, c3⟩

/-- Witness for C4 at a concrete run. -/
theorem C4_witness :
    (runResearch sampleOracle sampleCfg sampleInput 2).loop_counts =
        (List.range (runResearch sampleOracle sampleCfg
            sampleInput 2).loop_counts.length).map
          (fun i : Nat => (i : Int) + 1) ∧
      (runResearch sampleOracle sampleCfg
          sampleInput 2).final.research_loop_count.getD 0 =
        ((runResearch sampleOracle sampleCfg
            sampleInput 2).loop_counts.length : Int) ∧
      (runResearch sampleOracle sampleCfg sampleInput 2).loop_counts.length ≤
        (runResearch sampleOracle sampleCfg sampleInput 2).batches.length :=
  C4_reflection_increments sampleOracle sampleCfg sampleInput 2 rfl

/-- C5: in every follow-up fan-out the i-th branch receives id
`number_of_ran_queries + i` (the id list is empty on the terminal route),
and across a whole run the branch ids of all executed fan-out batches are
pairwise distinct — no id of a later batch equals an id of an earlier
batch. -/
theorem C5_branch_ids_unique (oracle : Oracle) (cfg : Configuration)
    (input : OverallState) (fuel : Nat) (s : ReflectionState)
    (h0 : input.research_loop_count = none) :
    ((evaluate_research s cfg).sendList.map Send.id =
        if s.is_sufficient = true ∨
            s.research_loop_count ≥ effectiveMax s.max_research_loops cfg then
          ([] : List Int)
        else
          (List.range s.follow_up_queries.length).map
            (fun i : Nat => s.number_of_ran_queries + (i : Int))) ∧
      ((runResearch oracle cfg input fuel).batches.flatten.map Send.id).Nodup := by
  constructor
  · by_cases hc : s.is_sufficient = true ∨
        s.research_loop_count ≥ effectiveMax s.max_research_loops cfg
    · rw [if_pos hc, (evaluate_research_node_iff s cfg).mpr hc]
      rfl
    · rw [if_neg hc]
      have hev : evaluate_research s cfg =
          .sends (s.follow_up_queries.enum.map fun p =>
            Send.mk "web_research" p.2
              (s.number_of_ran_queries + (p.1 : Int))) := by
        simp only [evaluate_research]
        rw [if_neg hc]
      rw [hev]
      exact enum_map_id_offset _ _
  · exact (runResearch_master oracle cfg input fuel h0).2.2.2.1

/-- Witness for C5 at a concrete reflection state and run. -/
theorem C5_witness :
    ((evaluate_research ⟨false, "", ["f1", "f2"], 1, 2, none⟩
          sampleCfg).sendList.map Send.id =
        if (⟨false, "", ["f1", "f2"], 1, 2, none⟩ :
              ReflectionState).is_sufficient = true ∨
            (⟨false, "", ["f1", "f2"], 1, 2, none⟩ :
              ReflectionState).research_loop_count ≥
              effectiveMax (⟨false, "", ["f1", "f2"], 1, 2, none⟩ :
                ReflectionState).max_research_loops sampleCfg then
          ([] : List Int)
        else
          (List.range (⟨false, "", ["f1", "f2"], 1, 2, none⟩ :
              ReflectionState).follow_up_queries.length).map
            (fun i : Nat =>
              (⟨false, "", ["f1", "f2"], 1, 2, none⟩ :
                ReflectionState).number_of_ran_queries + (i : Int))) ∧
      ((runResearch sampleOracle sampleCfg
          sampleInput 2).batches.flatten.map Send.id).Nodup :=
  C5_branch_ids_unique sampleOracle sampleCfg sampleInput 2
    ⟨false, "", ["f1", "f2"], 1, 2, none⟩ rfl

/-- C6 counterexample: the short URL `ab` of the second source occurs in
the generated answer text `ab`, yet the source is dropped — processing the
first source (short URL `a`) rewrites the text to `xb` before the second
source is examined — refuting the claim that occurrence in the generated
text suffices to be kept. -/
theorem C6_counterexample :
    pyContains ['a', 'b']
        (⟨[], ['a', 'b'], ['y']⟩ : SourceSegment).short_url = true ∧
      (⟨[], ['a', 'b'], ['y']⟩ : SourceSegment) ∉
        (finalize_answer_post ['a', 'b']
          [⟨[], ['a'], ['x']⟩, ⟨[], ['a', 'b'], ['y']⟩]).2 := by
  decide

/-- C6 (amended): the update returned by `finalize_answer` processes the
sources sequentially in list order: a source is kept exactly when its short
URL occurs in the text as it stands when that source is processed (earlier
replacements already applied), in which case its occurrences in that
current text are replaced by the long URL; otherwise it is dropped.  The
kept list is a subsequence of the input. -/
theorem C6_finalize_update_sequential (content : PyStr)
    (sources : List SourceSegment) :
    finalize_answer_post content sources =
        (finalizeTextSpec content sources, finalizeKeptSpec content sources) ∧
      (finalize_answer_post content sources).2.Sublist sources :=
  ⟨finalize_answer_post_eq content sources, by
    rw [finalize_answer_post_eq]
    exact finalizeKeptSpec_sublist content sources⟩

/-- C7: every run whose effective `max_research_loops` is 0 and that
generates at least one query still reaches `finalize_answer`: the first
reflection routing decision already satisfies the bound check
(`research_loop_count` = 1 ≥ 0), so exactly one batch of web research (the
initial one) and exactly one reflection execute. -/
theorem C7_zero_max_terminates (oracle : Oracle) (cfg : Configuration)
    (input : OverallState) (fuel : Nat)
    (h0 : input.research_loop_count = none)
    (hmax : effectiveMax input.max_research_loops cfg = 0)
    (hq : oracle.generated_queries ≠ [])
    (hfuel : 1 ≤ fuel) :
    (runResearch oracle cfg input fuel).outcome = .finalized ∧
      (runResearch oracle cfg input fuel).batches.length = 1 ∧
      (runResearch oracle cfg input fuel).loop_counts = [1] := by
  have hlen : (initialPhase oracle input).2.length =
      (input.search_query ++ oracle.generated_queries).length := by
    rw [initialPhase_snd]
    simp [continue_to_web_research]
  cases hq2 : (initialPhase oracle input).2 with
  | nil =>
    exfalso
    rw [hq2] at hlen
    simp only [List.length_nil] at hlen
    have h2 : input.search_query ++ oracle.generated_queries = [] :=
      List.length_eq_zero.mp hlen.symm
    exact hq (List.append_eq_nil.mp h2).2
  | cons task rest =>
    cases fuel with
    | zero => omega
    | succ f =>
      rw [runResearch_cons oracle cfg input (f + 1) task rest hq2]
      have hr : (reflection_node oracle 0
          (initialPhase oracle input).1).research_loop_count = 1 := by
        simp [reflection_node, initialPhase_research_loop_count, h0]
      have hrm : (reflection_node oracle 0
          (initialPhase oracle input).1).max_research_loops =
          input.max_research_loops := by
        simp [reflection_node, initialPhase_max_research_loops]
      have hev : evaluate_research
          (reflection_node oracle 0 (initialPhase oracle input).1) cfg =
          .node "finalize_answer" := by
        rw [evaluate_research_node_iff]
        right
        rw [hr, hrm, hmax]
        omega
      rw [researchLoop_succ_node oracle cfg f 0 _ _ _ _ hev]
      refine ⟨rfl, rfl, ?_⟩
      show [] ++ [(reflection_node oracle 0
          (initialPhase oracle input).1).research_loop_count] = [1]
      rw [hr]
      rfl

/-- Witness for C7 at a concrete run with the loop bound overridden to 0. -/
theorem C7_witness :
    (runResearch sampleOracle sampleCfg zeroInput 1).outcome = .finalized ∧
      (runResearch sampleOracle sampleCfg zeroInput 1).batches.length = 1 ∧
      (runResearch sampleOracle sampleCfg zeroInput 1).loop_counts = [1] :=
  C7_zero_max_terminates sampleOracle sampleCfg zeroInput 1 rfl rfl
    (by decide) (le_refl 1)

/-- C8 counterexample: a concrete run whose query generation yields zero
queries ends immediately after the empty fan-out — it executes no
reflection, never reaches `finalize_answer` (no terminal node), and
produces no answer message — refuting the claim that the orchestrator
proceeds to the next routing decision and still reaches a terminal node. -/
theorem C8_counterexample :
    (runResearch emptyOracle sampleCfg sampleInput 3).outcome =
        .halted_no_initial_branches ∧
      (runResearch emptyOracle sampleCfg sampleInput 3).outcome ≠ .finalized ∧
      (runResearch emptyOracle sampleCfg sampleInput 3).loop_counts = [] ∧
      (runResearch emptyOracle sampleCfg sampleInput 3).final.messages =
        sampleInput.messages :=
  ⟨rfl, by decide, rfl, rfl⟩

/-- C8 (amended): a fan-out of degree 0 is treated as "no branches to run"
and the stage contributes no state changes, but the run then stops at that
point instead of proceeding to another routing decision: with zero
generated queries the run ends with the state unchanged, executing neither
reflection nor `finalize_answer`; and when a continue decision carries zero
follow-up queries the loop ends right after that reflection without
reaching `finalize_answer`. -/
theorem C8_empty_fanout_halts :
    (∀ (oracle : Oracle) (cfg : Configuration) (input : OverallState)
        (fuel : Nat),
      oracle.generated_queries = [] → input.search_query = [] →
        runResearch oracle cfg input fuel =
          ⟨input, .halted_no_initial_branches, [], []⟩) ∧
      (∀ (oracle : Oracle) (cfg : Configuration) (st : OverallState)
          (batches : List (List Send)) (counts : List Int) (fuel k : Nat),
        (oracle.reflections k).is_sufficient = false →
          (oracle.reflections k).follow_up_queries = [] →
          st.research_loop_count.getD 0 + 1 <
            effectiveMax st.max_research_loops cfg →
          researchLoop oracle cfg (fuel + 1) k st batches counts =
            ⟨applyReflectionUpdate st (reflection_node oracle k st),
              .halted_no_followup_branches, batches,
              counts ++ [st.research_loop_count.getD 0 + 1]⟩) := by
  constructor
  · intro oracle cfg input fuel hgen hsq
    obtain ⟨m, sq, wr, sg, ic, mx, rc, rm⟩ := input
    obtain ⟨gq, wt, ws, rf, ans⟩ := oracle
    change sq = [] at hsq
    change gq = [] at hgen
    subst hsq
    subst hgen
    rfl
  · intro oracle cfg st batches counts fuel k hsuff hfq hlt
    have hr1 : (reflection_node oracle k st).is_sufficient = false := hsuff
    have hr2 : (reflection_node oracle k st).follow_up_queries = [] := hfq
    have hr3 : (reflection_node oracle k st).research_loop_count =
        st.research_loop_count.getD 0 + 1 := rfl
    have hr4 : (reflection_node oracle k st).max_research_loops =
        st.max_research_loops := rfl
    have hcond : ¬((reflection_node oracle k st).is_sufficient = true ∨
        (reflection_node oracle k st).research_loop_count ≥
          effectiveMax (reflection_node oracle k st).max_research_loops cfg) := by
      rw [hr1, hr3, hr4]
      rintro (h | h)
      · simp at h
      · omega
    have hev : evaluate_research (reflection_node oracle k st) cfg =
        .sends [] := by
      simp only [evaluate_research]
      rw [if_neg hcond, hr2]
      rfl
    rw [researchLoop_succ_nil oracle cfg fuel k st batches counts hev]
    rfl

/-- Witness for the amended C8: both halting behaviours at concrete
inputs. -/
theorem C8_witness :
    runResearch emptyOracle sampleCfg sampleInput 3 =
        ⟨sampleInput, .halted_no_initial_branches, [], []⟩ ∧
      researchLoop emptyOracle sampleCfg 1 0 fiveInput [] [] =
        ⟨applyReflectionUpdate fiveInput
            (reflection_node emptyOracle 0 fiveInput),
          .halted_no_followup_branches, [],
          [fiveInput.research_loop_count.getD 0 + 1]⟩ :=
  ⟨C8_empty_fanout_halts.1 emptyOracle sampleCfg sampleInput 3 rfl rfl,
    C8_empty_fanout_halts.2 emptyOracle sampleCfg fiveInput [] [] 0 0 rfl rfl
      (by decide)⟩

/-- C9 (spec-modelled): over any sequence of `resolve_urls` calls in a run,
no two distinct long URLs are assigned the same short key; a key once
assigned to a URL is returned unchanged by any later resolution; and
re-resolving a set of URLs already resolved in the run leaves the resolver
state unchanged (idempotence). -/
theorem C9_resolver_unique_idempotent (calls : List (Int × List String)) :
    (∀ p ∈ (runResolver calls).assigned, ∀ q ∈ (runResolver calls).assigned,
        p.1 ≠ q.1 → p.2 ≠ q.2) ∧
      (∀ (b : Int) (urls : List String) (u : String) (k : ShortKey),
        (runResolver calls).assigned.lookup u = some k →
          (resolve_urls b urls (runResolver calls)).assigned.lookup u =
            some k) ∧
      (∀ (b : Int) (urls : List String),
        resolve_urls b urls (resolve_urls b urls (runResolver calls)) =
          resolve_urls b urls (runResolver calls)) := by
  refine ⟨?_, ?_, ?_⟩
  · intro p hp q hq hne heq
    obtain ⟨-, -, h3⟩ := runResolver_inv calls
    have hpq : p = q := List.inj_on_of_nodup_map h3 hp hq (by rw [heq])
    rw [hpq] at hne
    exact hne rfl
  · intro b urls u k h
    exact resolve_urls_stable b urls _ u k h
  · intro b urls
    exact resolve_urls_of_all_isSome b urls _ (resolve_urls_isSome b urls _)

/-- Witness for C9: idempotent re-resolution and key stability at a
concrete call sequence. -/
theorem C9_witness :
    resolve_urls 1 ["a"]
          (resolve_urls 1 ["a"] (runResolver [(0, ["a", "b"])])) =
        resolve_urls 1 ["a"] (runResolver [(0, ["a", "b"])]) ∧
      (resolve_urls 1 ["c"]
          (runResolver [(0, ["a", "b"])])).assigned.lookup "a" =
        some ⟨0, 0⟩ :=
  ⟨(C9_resolver_unique_idempotent [(0, ["a", "b"])]).2.2 1 ["a"],
    (C9_resolver_unique_idempotent [(0, ["a", "b"])]).2.1 1 ["c"] "a" ⟨0, 0⟩
      (by decide)⟩

/-- C10: after the N-way initial fan-out batch completes on a fresh input,
the merged `search_query` channel is the generated query list appended to
itself — each generated query occurs at least twice (once contributed by
`generate_query`'s own update and once by the branch that executed it, both
combined by the `operator.add` reducer), the merged length is 2N — while
only N search branches ran. -/
theorem C10_initial_batch_doubles (oracle : Oracle) (input : OverallState)
    (h : input.search_query = []) :
    (initialPhase oracle input).1.search_query =
        oracle.generated_queries ++ oracle.generated_queries ∧
      (initialPhase oracle input).1.search_query.length =
        2 * oracle.generated_queries.length ∧
      (∀ q ∈ oracle.generated_queries,
        2 ≤ (initialPhase oracle input).1.search_query.count q) ∧
      (initialPhase oracle input).2.length =
        oracle.generated_queries.length := by
  have hsq := initialPhase_search_query oracle input
  rw [h, List.nil_append] at hsq
  refine ⟨hsq, ?_, ?_, ?_⟩
  · rw [hsq, List.length_append]
    ring
  · intro q hq
    rw [hsq, List.count_append]
    have h1 : 0 < oracle.generated_queries.count q :=
      List.count_pos_iff.mpr hq
    omega
  · rw [initialPhase_snd, h, List.nil_append]
    simp [continue_to_web_research]

/-- Witness for C10 at a concrete oracle and fresh input. -/
theorem C10_witness :
    (initialPhase sampleOracle sampleInput).1.search_query =
        sampleOracle.generated_queries ++ sampleOracle.generated_queries ∧
      (initialPhase sampleOracle sampleInput).1.search_query.length =
        2 * sampleOracle.generated_queries.length ∧
      (∀ q ∈ sampleOracle.generated_queries,
        2 ≤ (initialPhase sampleOracle sampleInput).1.search_query.count q) ∧
      (initialPhase sampleOracle sampleInput).2.length =
        sampleOracle.generated_queries.length :=
  C10_initial_batch_doubles sampleOracle sampleInput rfl


end SearchAgent
